import Mathlib

/-!
Verification development for the C deadlock detector
(`src/deadlock_detector.py`).

The Python program drives GDB over a multi-threaded process, parses the
`thread apply all bt` output into threads and stack frames, resolves for
each blocked thread which thread owns the mutex it waits on, and reports
waiting chains and deadlocks.

This file gives a shallow embedding of the pure parts of that program:
 * Python exceptions are modelled by `Except PyErr`,
 * Python string truthiness by explicit emptiness checks,
 * the regular expressions of `Frame.parse` and `parse_thread_state` by a
   small executable backtracking matcher with capture groups whose greedy
   semantics follows CPython's `re`,
 * the GDB queries themselves are out of scope (external collaborator);
   the functions that consume their textual answers are embedded on the
   text, line list in, value out.
-/

/-- Python exceptions that the embedded code can raise. -/
inductive PyErr where
  | valueError
  | indexError
  | typeError
deriving DecidableEq, Repr

/-! ## Python primitive helpers -/

/-- Digit character class `[0-9]`. -/
def digitC (c : Char) : Bool := '0' ≤ c && c ≤ '9'

/-- Word character class `[a-zA-Z0-9_-]` used by the frame grammar. -/
def wordC (c : Char) : Bool :=
  digitC c || ('a' ≤ c && c ≤ 'z') || ('A' ≤ c && c ≤ 'Z') || c == '_' || c == '-'

/-- Character class `[\?a-zA-Z0-9_-]` of the `in <func>` clause. -/
def inFuncC (c : Char) : Bool := c == '?' || wordC c

/-- Character class `[,/.:_\-a-zA-Z0-9]` of the file/module locators. -/
def fileC (c : Char) : Bool :=
  c == ',' || c == '/' || c == '.' || c == ':' || wordC c

/-- Lower-case hexadecimal digit class `[a-f0-9]` of the thread header. -/
def hexC (c : Char) : Bool := digitC c || ('a' ≤ c && c ≤ 'f')

/-- The literal space character class (Python's " *" in the frame grammar). -/
def spaceC (c : Char) : Bool := c == ' '

/-- The `.` class of Python `re` on a single line (no newlines in a line). -/
def anyC (_ : Char) : Bool := true

/-- Test `leadsWith pre s`: holds when the character list `pre` starts `s`. -/
def leadsWith : List Char → List Char → Bool
  | [], _ => true
  | _ :: _, [] => false
  | a :: as, b :: bs => a == b && leadsWith as bs

/-- Python `sub in s` substring test (`str.find(sub) >= 0`). -/
def containsSubAux (sub : List Char) : List Char → Bool
  | [] => sub.isEmpty
  | c :: t => leadsWith sub (c :: t) || containsSubAux sub t

/-- Python substring containment on strings. -/
def containsSub (s sub : String) : Bool := containsSubAux sub.data s.data

/-- Python `s.startswith(pre)`, i.e. `s.find(pre) == 0`. -/
def startsW (s pre : String) : Bool := leadsWith pre.data s.data

/-- Accumulator loop of `fieldsOf`: `cur` holds the characters of the field
being read, in reverse. -/
def splitWsAux : List Char → List Char → List String
  | [], cur => if cur.isEmpty then [] else [String.mk cur.reverse]
  | c :: t, cur =>
    if c.isWhitespace then
      if cur.isEmpty then splitWsAux t []
      else String.mk cur.reverse :: splitWsAux t []
    else splitWsAux t (c :: cur)

/-- Python `line.split()`: split on whitespace runs, dropping empty pieces. -/
def fieldsOf (line : String) : List String :=
  splitWsAux line.data []

/-- Numeric value of a digit list (all characters assumed in `[0-9]`). -/
def digitsVal : List Char → Nat :=
  List.foldl (fun a c => a * 10 + (c.toNat - 48)) 0

/-- Python `int(s, 10)`: strip surrounding whitespace, optional sign, then
at least one decimal digit; otherwise `ValueError`.  (CPython additionally
accepts `_` separators between digits; no input in this development uses
them.) -/
def pyInt (s : String) : Except PyErr Int :=
  let cs := s.data.dropWhile Char.isWhitespace
  let cs := (cs.reverse.dropWhile Char.isWhitespace).reverse
  let core : List Char → Except PyErr Nat := fun l =>
    if l.isEmpty then .error .valueError
    else if l.all digitC then .ok (digitsVal l)
    else .error .valueError
  match cs with
  | '+' :: t => (core t).map (fun n => (n : Int))
  | '-' :: t => (core t).map (fun n => -(n : Int))
  | t => (core t).map (fun n => (n : Int))

/-- Python truthiness of an optional string attribute (`None` and `""` are
falsy). -/
def pyTruthyS : Option String → Bool
  | none => false
  | some s => s != ""

/-- Python `l[i]`, raising `IndexError` when out of range. -/
def pyGet (l : List String) (i : Nat) : Except PyErr String :=
  match l.get? i with
  | some v => .ok v
  | none => .error .indexError

/-! ## Data model

`FrameData` mirrors the attributes of the Python `Frame` object after
`parse()` ran, `ThreadData` those of `Thread`, `GDBState` the fields of
`GDB` that `print_status` consumes. -/

/-- One parsed stack frame (the Python `Frame` object's fields). -/
structure FrameData where
  raw : String
  index : Int
  addr : Option String
  in_func : Option String
  from_file : Option String
  at_file : Option String
  locked : Bool
  lock_type : Option String
deriving DecidableEq, Repr

/-- One parsed thread (the Python `Thread` object's fields). -/
structure ThreadData where
  index : Int
  addr : String
  lwp : String
  name : Option String
  frames : List FrameData
  locked : Bool
  locked_index : Option Int
  lock_func : Option String
  lock_owner_lwp : Option String
deriving DecidableEq, Repr

/-- The fields of the Python `GDB` object that the reporting code reads. -/
structure GDBState where
  threads : List ThreadData
  num_locked : Nat
  deadlock_threads : List (ThreadData × ThreadData)
deriving DecidableEq, Repr

/-- Model of `GDB.thread_by_lwp`: first thread whose `lwp` string equals the given
value; comparing a string attribute against Python `None` is simply false,
hence the `Option` on the argument. -/
def threadByLwp (ths : List ThreadData) (lwp : Option String) : Option ThreadData :=
  ths.find? (fun th => some th.lwp == lwp)

/-- Loop body accumulation of `GDB.find_deadlock`: scan `items`, appending a
`(waiter, owner)` pair whenever the waiter is locked, its owner LWP resolves
to a known thread, and that owner is itself locked waiting on the waiter's
LWP. -/
def findDeadlockAux (all : List ThreadData) :
    List ThreadData → List (ThreadData × ThreadData) → List (ThreadData × ThreadData)
  | [], acc => acc
  | th :: rest, acc =>
    let acc' :=
      if th.locked then
        match threadByLwp all th.lock_owner_lwp with
        | some owner =>
          if owner.locked && pyTruthyS owner.lock_owner_lwp
              && (owner.lock_owner_lwp == some th.lwp)
          then acc ++ [(th, owner)]
          else acc
        | none => acc
      else acc
    findDeadlockAux all rest acc'

/-- Model of `GDB.find_deadlock`: the pairwise mutual-wait scan over all threads. -/
def findDeadlock (ths : List ThreadData) : List (ThreadData × ThreadData) :=
  findDeadlockAux ths ths []

/-! ## A small regular-expression matcher

The Python code builds its patterns from character-class repetitions and
literals only, with non-nested capture groups and no repetition of a group,
so a first-match backtracking matcher with greedy class repetition
(`starCls`) reproduces CPython's `re.match` semantics on exactly the
patterns the program uses. -/

/-- Regular expressions as the Python source combines them: literals,
single-character classes, greedy class repetition, concatenation and
numbered capture groups. -/
inductive RE where
  | eps : RE
  | lit : Char → RE
  | cls : (Char → Bool) → RE
  | starCls : (Char → Bool) → RE
  | seq : RE → RE → RE
  | group : Nat → RE → RE

/-- Captured groups of one match attempt, by group number. -/
abbrev Caps := List (Nat × String)

/-- Greedy repetition: try the continuation after consuming `i` characters,
backing off one character at a time (longest match first, as CPython). -/
def greedyTry (s : List Char) (caps : Caps)
    (k : List Char → Caps → Option Caps) : Nat → Option Caps
  | 0 => k s caps
  | i + 1 =>
    match k (s.drop (i + 1)) caps with
    | some r => some r
    | none => greedyTry s caps k i

/-- The substring consumed between a position `s` and a later suffix. -/
def consumedBetween (s rest : List Char) : String :=
  String.mk (s.take (s.length - rest.length))

/-- Backtracking matcher in continuation style.  `run r s caps k` tries to
match `r` at the front of `s` and passes the remainder and the extended
capture list to `k`, preferring longer class repetitions first. -/
def run : RE → List Char → Caps → (List Char → Caps → Option Caps) → Option Caps
  | .eps, s, caps, k => k s caps
  | .lit c, s, caps, k =>
    match s with
    | [] => none
    | c' :: rest => if c' == c then k rest caps else none
  | .cls f, s, caps, k =>
    match s with
    | [] => none
    | c' :: rest => if f c' then k rest caps else none
  | .starCls f, s, caps, k => greedyTry s caps k (s.takeWhile f).length
  | .seq a b, s, caps, k => run a s caps (fun s' caps' => run b s' caps' k)
  | .group n r, s, caps, k =>
    run r s caps (fun s' caps' => k s' (caps' ++ [(n, consumedBetween s s')]))

/-- Python `re.match`: anchored at the start of the string, any remainder
accepted; returns the captures of the first (leftmost-greedy) match. -/
def reMatch (r : RE) (s : String) : Option Caps :=
  run r s.data [] (fun _ caps => some caps)

/-- The string a numbered group captured (all groups of the patterns in this
program always participate in a successful match). -/
def capGroup (caps : Caps) (n : Nat) : Option String :=
  (caps.find? (fun q => q.1 == n)).map (fun q => q.2)

/-- Concatenation of single-character literals for a literal text piece. -/
def lits (s : String) : RE :=
  s.data.foldr (fun c r => .seq (.lit c) r) .eps

/-! ## `Frame.parse` -/

/-- The pattern `base_pattern = '#([0-9]*) *([a-zA-Z0-9_-]*).*'`, groups 0 and 1. -/
def basePat : RE :=
  .seq (.lit '#')
    (.seq (.group 0 (.starCls digitC))
      (.seq (.starCls spaceC)
        (.seq (.group 1 (.starCls wordC)) (.starCls anyC))))

/-- The pattern `in_pattern = 'in ([\?a-zA-Z0-9_-]*) \(.*\)'` with group number `g`. -/
def inPat (g : Nat) : RE :=
  .seq (lits "in ")
    (.seq (.group g (.starCls inFuncC))
      (.seq (lits " (") (.seq (.starCls anyC) (lits ")"))))

/-- The pattern `from_pattern = 'from ([,/.:_\-a-zA-Z0-9]*)'` with group number `g`. -/
def fromPat (g : Nat) : RE :=
  .seq (lits "from ") (.group g (.starCls fileC))

/-- The pattern `at_pattern = 'at ([,/.:_\-a-zA-Z0-9]*)'` with group number `g`. -/
def atPat (g : Nat) : RE :=
  .seq (lits "at ") (.group g (.starCls fileC))

/-- The dynamic pattern assembly of `Frame.parse`: start from the base
pattern and append the `in`, `from`, `at` clauses (in that fixed order)
exactly when the corresponding keyword occurs in the raw line, recording the
keywords found.  Returns the pattern, its number of groups, and `found`. -/
def buildFramePattern (raw : String) : RE × Nat × List String :=
  let s0 : RE × Nat × List String := (basePat, 2, [])
  let s1 :=
    if containsSub raw " in " then
      (RE.seq s0.1 (.seq (.lit ' ') (inPat s0.2.1)), s0.2.1 + 1, s0.2.2 ++ ["in"])
    else s0
  let s2 :=
    if containsSub raw " from " then
      (RE.seq s1.1 (.seq (.lit ' ') (fromPat s1.2.1)), s1.2.1 + 1, s1.2.2 ++ ["from"])
    else s1
  if containsSub raw " at " then
    (RE.seq s2.1 (.seq (.lit ' ') (atPat s2.2.1)), s2.2.1 + 1, s2.2.2 ++ ["at"])
  else s2

/-- The freshly constructed `Frame` before `parse` assigns anything
(`index = -1`, everything else empty). -/
def initFrame (raw : String) : FrameData :=
  { raw := raw, index := -1, addr := none, in_func := none,
    from_file := none, at_file := none, locked := false, lock_type := none }

/-- Model of `Frame.parse` as run by `Frame.__init__` on one raw frame line.

Faithful points: a line that does not match the assembled pattern leaves the
frame at `index = -1` (diagnostic printed, no exception); `int(data[0], 10)`
raises `ValueError` when group 0 captured the empty string; the locator
branch reproduces the source's `elif 'at':` whose condition is the constant
string `'at'` and therefore always true, so when no `in` clause was found it
reads `data[2]` — an `IndexError` when the pattern had only the two base
groups.  The call to `parse_locked_state` (a GDB query) is modelled
separately by `lockAddrScan`; it does not change any of the frame fields
below. -/
def parseFrame (raw : String) : Except PyErr FrameData :=
  let f0 := initFrame raw
  let b := buildFramePattern raw
  match reMatch b.1 raw with
  | none => .ok f0
  | some caps => do
    let data := (List.range b.2.1).map (fun i => (capGroup caps i).getD "")
    let d0 ← pyGet data 0
    let idx ← pyInt d0
    let d1 ← pyGet data 1
    let f1 := { f0 with index := idx, addr := some d1 }
    let f2 ←
      if b.2.2.contains "in" then do
        let v ← pyGet data 2
        let fIn := { f1 with in_func := some v }
        if b.2.2.contains "from" then do
          let w ← pyGet data 3
          pure { fIn with from_file := some w }
        else if b.2.2.contains "at" then do
          let w ← pyGet data 3
          pure { fIn with at_file := some w }
        else
          pure fIn
      else do
        let w ← pyGet data 2
        pure { f1 with at_file := some w }
    let f3 :=
      match f2.in_func with
      | some s =>
        if s != "" then
          if containsSub s "pthread_mutex_lock" then
            { f2 with locked := true, lock_type := some "pthread_mutex_t" }
          else if containsSub s "pthread_rwlock" then
            { f2 with locked := true, lock_type := some "pthread_rwlock_t" }
          else f2
        else f2
      | none => f2
    .ok f3

/-! ## `parse_thread_state` -/

/-- The thread-header pattern
`'Thread ([0-9]*) \(Thread (0x[a-f0-9]*) \(LWP ([0-9]*)\)\)'`. -/
def headerPat : RE :=
  .seq (lits "Thread ")
    (.seq (.group 0 (.starCls digitC))
      (.seq (lits " (Thread ")
        (.seq (.group 1 (.seq (.lit '0') (.seq (.lit 'x') (.starCls hexC))))
          (.seq (lits " (LWP ")
            (.seq (.group 2 (.starCls digitC)) (lits "))"))))))

/-- Model of `Thread.__init__`: a fresh thread with no frames and no lock state. -/
def mkThread (idx : Int) (addr lwp : String) : ThreadData :=
  { index := idx, addr := addr, lwp := lwp, name := none, frames := [],
    locked := false, locked_index := none, lock_func := none,
    lock_owner_lwp := none }

/-- Model of `Thread.add_frame` after the frame was parsed: a blocking frame marks
the thread locked, records the frame's index as `locked_index`, and bumps
the snapshot-wide `num_locked` counter; every frame (invalid ones included)
is appended to the thread. -/
def addFrame (th : ThreadData) (numLocked : Nat) (f : FrameData) :
    ThreadData × Nat :=
  if f.locked then
    ({ th with frames := th.frames ++ [f], locked := true,
               locked_index := some f.index }, numLocked + 1)
  else
    ({ th with frames := th.frames ++ [f] }, numLocked)

/-- The line loop of `parse_thread_state` over the `thread apply all bt`
output.  State: the current thread (if inside one), the finished threads in
order, and the global locked counter.  A blank line closes the current
thread; a non-`#` line inside a thread is skipped with a diagnostic; a `#`
line is parsed and appended (exceptions from `Frame.parse` or from
`int(...)` on a header abort the whole loop, as in Python). -/
def ptsLoop : List String → Option ThreadData → List ThreadData → Nat →
    Except PyErr (List ThreadData × Nat)
  | [], cur, acc, n =>
    match cur with
    | some th => .ok (acc ++ [th], n)
    | none => .ok (acc, n)
  | line :: rest, some th, acc, n =>
    if line == "" then
      ptsLoop rest none (acc ++ [th]) n
    else if line.data.head? != some '#' then
      ptsLoop rest (some th) acc n
    else
      match parseFrame line with
      | .error e => .error e
      | .ok f =>
        ptsLoop rest (some (addFrame th n f).1) acc (addFrame th n f).2
  | line :: rest, none, acc, n =>
    if startsW line "Thread " then
      match reMatch headerPat line with
      | none => ptsLoop rest none acc n
      | some caps =>
        match pyInt ((capGroup caps 0).getD "") with
        | .error e => .error e
        | .ok idx =>
          ptsLoop rest
            (some (mkThread idx ((capGroup caps 1).getD "")
              ((capGroup caps 2).getD ""))) acc n
    else
      ptsLoop rest none acc n

/-- The first phase of `GDB.parse_thread_state`: build all threads and the
locked counter from the lines of the `thread apply all bt` output. -/
def parseThreadState (lines : List String) : Except PyErr (List ThreadData × Nat) :=
  ptsLoop lines none [] 0

/-! ## `set_locks` -/

/-- The inner frame loop of `GDB.set_locks`: scan the frames in order and
return the `in_func` of the first frame whose index exceeds `locked_index`
and that has both a truthy `at_file` and a truthy `in_func` (`break`
afterwards).  Comparing an `int` against a `locked_index` of Python `None`
raises `TypeError`. -/
def lockFuncLoop (li : Option Int) : List FrameData → Except PyErr (Option String)
  | [] => .ok none
  | f :: fs =>
    match li with
    | none => .error .typeError
    | some v =>
      if f.index > v then
        if pyTruthyS f.at_file && pyTruthyS f.in_func then .ok f.in_func
        else lockFuncLoop li fs
      else lockFuncLoop li fs

/-- Model of `GDB.set_locks` restricted to one thread: for a locked thread the
`lock_func` field is recomputed by `lockFuncLoop` (starting from `None`);
an unlocked thread keeps its current value. -/
def setLockFunc (th : ThreadData) : Except PyErr (Option String) :=
  if th.locked then lockFuncLoop th.locked_index th.frames
  else .ok th.lock_func

/-! ## The register scan of `parse_locked_state` -/

/-- Discard all response lines up to and including the first line that
starts with the `=======` separator; `none` when no separator occurs. -/
def scanSep : List String → Option (List String)
  | [] => none
  | l :: ls => if startsW l "=======" then some ls else scanSep ls

/-- The post-separator loop of `Frame.parse_locked_state`: skip lines that
do not split into exactly three whitespace fields; a triple whose address
field is `0x80` and value field is `128` sets (or re-sets) the
`found_special` flag and is itself skipped; the first triple processed with
the flag set yields the memory address handed to the structure-dump query,
and the loop breaks. -/
def scanRegs : List String → Bool → Option String
  | [], _ => none
  | l :: ls, fsp =>
    match fieldsOf l with
    | [_, memAddr, val] =>
      if memAddr == "0x80" && val == "128" then scanRegs ls true
      else if fsp then some memAddr
      else scanRegs ls fsp
    | _ => scanRegs ls fsp

/-- The address-selection part of `Frame.parse_locked_state`: given the
lines of the `info reg` query response, the memory address (if any) that the
resolver passes to `p *(pthread_mutex_t*)<addr>`. -/
def lockAddrScan (lines : List String) : Option String :=
  match scanSep lines with
  | none => none
  | some rest => scanRegs rest false

/-- A register-dump line that is an anchor: exactly three whitespace fields
with address field `0x80` and value field `128`. -/
def isAnchor (l : String) : Bool :=
  match fieldsOf l with
  | [_, a, v] => a == "0x80" && v == "128"
  | _ => false

/-- Modelled from the claim's words (C10), for comparison with
`lockAddrScan`: after the separator, the address is the second field of the
first line splitting into exactly three fields that follows the anchor
line; lines with any other field count are skipped. -/
def claimAddrScan (lines : List String) : Option String :=
  match scanSep lines with
  | none => none
  | some rest =>
    match rest.dropWhile (fun l => !(isAnchor l)) with
    | [] => none
    | _ :: post =>
      match post.find? (fun l => (fieldsOf l).length == 3) with
      | some l => (fieldsOf l).get? 1
      | none => none

/-- The amended selection rule: as the claim, except that a post-anchor
triple that is itself an anchor line is skipped rather than selected. -/
def amendedAddrScan (lines : List String) : Option String :=
  match scanSep lines with
  | none => none
  | some rest =>
    match rest.dropWhile (fun l => !(isAnchor l)) with
    | [] => none
    | _ :: post =>
      match post.find? (fun l => (fieldsOf l).length == 3 && !(isAnchor l)) with
      | some l => (fieldsOf l).get? 1
      | none => none

/-! ## `print_status` -/

/-- The print statements of `GDB.print_status` as abstract report events
(the textual formatting itself is the out-of-scope Reporter surface). -/
inductive OutEvent where
  | noLockedThreads
  | separator
  | noOwner (th : ThreadData)
  | waiting (th : ThreadData) (func : Option String) (owner : ThreadData)
  | backtrace (th : ThreadData)
  | deadlockBetween (a b : ThreadData)
deriving DecidableEq, Repr

/-- The filter loop of `print_status`: collect the locked threads, once if
no filter is given, and once per filter criterion they meet otherwise.  The
list comprehension `[int(x, 10) for x in only_show]` is evaluated afresh for
every locked thread and raises `ValueError` on a non-numeric entry. -/
def filterLoop (only_show : List String) :
    List ThreadData → List ThreadData → Except PyErr (List ThreadData)
  | [], acc => .ok acc
  | th :: rest, acc =>
    if !th.locked then filterLoop only_show rest acc
    else do
      let acc1 := if only_show.isEmpty then acc ++ [th] else acc
      let ints ← only_show.mapM pyInt
      let acc2 := if ints.contains th.index then acc1 ++ [th] else acc1
      let nameHit :=
        match th.name with
        | some nm => nm != "" && only_show.contains nm
        | none => false
      let acc3 := if nameHit then acc2 ++ [th] else acc2
      filterLoop only_show rest acc3

/-- The report loop of `print_status` over the filtered threads: a thread
whose owner LWP resolves to no known thread yields a `noOwner` line and is
skipped; otherwise a `waiting` line (framed by separator and backtraces when
`show_bt`). -/
def reportLoop (all : List ThreadData) (show_bt : Bool) :
    List ThreadData → List OutEvent
  | [] => []
  | th :: rest =>
    match threadByLwp all th.lock_owner_lwp with
    | none => .noOwner th :: reportLoop all show_bt rest
    | some owner =>
      (if show_bt then [.separator] else [])
        ++ [.waiting th th.lock_func owner]
        ++ (if show_bt then [.backtrace th, .backtrace owner] else [])
        ++ reportLoop all show_bt rest

/-- Model of `GDB.print_status` on the program's real call path (`only_show` is the
`--thread` list, `[]` by default): report events or the exception that
aborted the run. -/
def printStatus (st : GDBState) (show_bt : Bool) (only_show : List String) :
    Except PyErr (List OutEvent) :=
  if st.num_locked == 0 then .ok [.noLockedThreads]
  else do
    let filtered ← filterLoop only_show st.threads []
    .ok (reportLoop st.threads show_bt filtered
      ++ st.deadlock_threads.map (fun p => OutEvent.deadlockBetween p.1 p.2))

/-! ## Derived notions used by the theorems -/

/-- Number of frames of a thread that were classified as blocking. -/
def lockedFrameCount (th : ThreadData) : Nat :=
  th.frames.countP (fun f => f.locked)

/-- Total number of blocking frames over a list of threads: the quantity
`num_locked` actually accumulates. -/
def totalLockedFrames (l : List ThreadData) : Nat :=
  (l.map lockedFrameCount).sum

/-- The current thread of the parser loop, as a (zero- or one-element)
suffix of the thread list it will produce. -/
def pending : Option ThreadData → List ThreadData
  | none => []
  | some th => [th]

/-- After parsing, a thread is marked locked exactly when one of its frames
is blocking. -/
def lockedOK (l : List ThreadData) : Prop :=
  ∀ th ∈ l, th.locked = th.frames.any (fun f => f.locked)

/-- The wait-for graph of a snapshot on LWPs: `x` waits for `y` when a
thread with LWP `x` is blocked with resolved owner LWP `y`, and `y` belongs
to some known thread of the snapshot. -/
def WaitRelL (ths : List ThreadData) (x y : String) : Prop :=
  ∃ a, a ∈ ths ∧ a.lwp = x ∧ a.locked = true ∧ a.lock_owner_lwp = some y ∧
    ∃ b, b ∈ ths ∧ b.lwp = y

/-- Modelled from the claim's words (C8), for comparison with
`setLockFunc`: the blocked-inside function is the called-function name of
the first frame found scanning with increasing index from the blocking
frame's index (the frame entered immediately after the blocking call). -/
def claimLockFunc (th : ThreadData) : Option String :=
  match th.locked_index with
  | none => none
  | some li => (th.frames.find? (fun f => decide (li < f.index))).bind
      (fun f => f.in_func)

/-! ## Concrete snapshots used as inputs of the theorems -/

/-- A thread blocked on a mutex, index `i`, LWP `l`, resolved owner LWP
`o`. -/
def blockedThread (i : Int) (l o : String) : ThreadData :=
  { index := i, addr := "0xa", lwp := l, name := none, frames := [],
    locked := true, locked_index := some 0, lock_func := none,
    lock_owner_lwp := some o }

/-- Scenario B snapshot: three threads in a cycle `T1 → T2 → T3 → T1`. -/
def cyc3 : List ThreadData :=
  [blockedThread 1 "101" "102", blockedThread 2 "102" "103",
   blockedThread 3 "103" "101"]

/-- Scenario A snapshot: two threads in mutual wait. -/
def c2a : ThreadData := blockedThread 1 "101" "102"

/-- Scenario A snapshot, second thread. -/
def c2b : ThreadData := blockedThread 2 "102" "101"

/-- A backtrace dump whose second line is a frame marker with no digits:
`Frame.parse` matches it with an empty index group. -/
def c3Lines : List String :=
  ["Thread 1 (Thread 0xabc (LWP 101))", "#"]

/-- The frame line of claim C4: a `from` locator and no `in`/`at` clause. -/
def c4Line : String := "#1  0x1234 from /lib/libc.so"

/-- What `Frame.parse` produces for `c4Line`. -/
def c4Frame : FrameData :=
  { raw := c4Line, index := 1, addr := some "0x1234", in_func := none,
    from_file := none, at_file := some "/lib/libc.so", locked := false,
    lock_type := none }

/-- A backtrace dump in which one thread has two blocking frames. -/
def c5Lines : List String :=
  ["Thread 1 (Thread 0xabc (LWP 101))",
   "#0  0x1 in __pthread_mutex_lock (m) at x.c:1",
   "#1  0x2 in pthread_mutex_lock (m) at y.c:2"]

/-- A backtrace dump with a single blocking frame in a single thread. -/
def c5WitLines : List String :=
  ["Thread 1 (Thread 0xabc (LWP 101))",
   "#0  0x1 in __pthread_mutex_lock (m) at x.c:1"]

/-- The one blocking frame `parseThreadState` builds from `c5WitLines`. -/
def c5WitFrame : FrameData :=
  { raw := "#0  0x1 in __pthread_mutex_lock (m) at x.c:1", index := 0,
    addr := some "0x1", in_func := some "__pthread_mutex_lock",
    from_file := none, at_file := some "x.c:1", locked := true,
    lock_type := some "pthread_mutex_t" }

/-- The one thread `parseThreadState` builds from `c5WitLines`. -/
def c5WitThread : ThreadData :=
  { index := 1, addr := "0xabc", lwp := "101", name := none,
    frames := [c5WitFrame], locked := true, locked_index := some 0,
    lock_func := none, lock_owner_lwp := none }

/-- Blocking frame of the C8 snapshot (index 0). -/
def c8f0 : FrameData :=
  { raw := "", index := 0, addr := some "0x0",
    in_func := some "pthread_mutex_lock", from_file := none,
    at_file := none, locked := true, lock_type := some "pthread_mutex_t" }

/-- The frame entered immediately after the blocking call: it has a
function name but a `from` module locator, no `at` source locator. -/
def c8f1 : FrameData :=
  { raw := "", index := 1, addr := some "0x1", in_func := some "func_a",
    from_file := some "/lib/m.so", at_file := none, locked := false,
    lock_type := none }

/-- A later frame with both a function name and an `at` source locator. -/
def c8f2 : FrameData :=
  { raw := "", index := 2, addr := some "0x2", in_func := some "func_b",
    from_file := none, at_file := some "main.c:10", locked := false,
    lock_type := none }

/-- The C8 snapshot thread: blocked at frame 0, frames as above. -/
def c8Th : ThreadData :=
  { index := 1, addr := "0xa", lwp := "101", name := none,
    frames := [c8f0, c8f1, c8f2], locked := true, locked_index := some 0,
    lock_func := none, lock_owner_lwp := some "102" }

/-- Scenario C thread: blocked, resolved owner LWP `999` matching no known
thread. -/
def c6Th : ThreadData := blockedThread 1 "101" "999"

/-- A single blocked thread whose owner LWP belongs to no thread: its wait
graph has no edge at all. -/
def c7Th : ThreadData := blockedThread 1 "101" "202"

/-- A locked thread carrying the display name `worker`. -/
def c9Th : ThreadData :=
  { blockedThread 2 "102" "101" with name := some "worker" }

/-- Register-dump response in which the first post-anchor triple is itself
an anchor line. -/
def c10Lines : List String :=
  ["=======", "rax 0x80 128", "rbx 0x80 128", "rcx 0xdead 57005"]

/-! # Theorems -/

/-! ## Helper lemmas on `find_deadlock` -/

/-- The scan of `find_deadlock` appends nothing when no scanned thread satisfies the
full mutual-wait condition. -/
theorem findDeadlockAux_no_append (all : List ThreadData)
    (items : List ThreadData) (acc : List (ThreadData × ThreadData))
    (h : ∀ th ∈ items, th.locked = true →
      ∀ owner, threadByLwp all th.lock_owner_lwp = some owner →
        (owner.locked && pyTruthyS owner.lock_owner_lwp
          && (owner.lock_owner_lwp == some th.lwp)) = false) :
    findDeadlockAux all items acc = acc := by
  induction items generalizing acc with
  | nil => rfl
  | cons th rest ih =>
    have hth := h th (List.mem_cons_self th rest)
    have hrest : ∀ th' ∈ rest, th'.locked = true →
        ∀ owner, threadByLwp all th'.lock_owner_lwp = some owner →
          (owner.locked && pyTruthyS owner.lock_owner_lwp
            && (owner.lock_owner_lwp == some th'.lwp)) = false :=
      fun th' hm => h th' (List.mem_cons_of_mem th hm)
    unfold findDeadlockAux
    cases hl : th.locked with
    | false => simpa [hl] using ih acc hrest
    | true =>
      cases ho : threadByLwp all th.lock_owner_lwp with
      | none => simpa [hl, ho] using ih acc hrest
      | some owner => simpa [hl, ho, hth hl owner ho] using ih acc hrest

/-- A relation with no edge has no transitive chain. -/
theorem transGen_of_edgeless {α : Type} {R : α → α → Prop}
    (hR : ∀ a b, ¬ R a b) (a b : α) : ¬ Relation.TransGen R a b := by
  intro htg
  cases htg with
  | single h => exact hR _ _ h
  | tail _ h => exact hR _ _ h

/-! ## C1 -/

/-- Claim C1: the claim states that a directed wait cycle of length `k` with
`2 ≤ k ≤ 5` (in particular the three-thread Scenario B cycle) is reported
as exactly one `DeadlockCycle` containing all `k` threads.  The code's
`find_deadlock` is a pairwise mutual-wait check: on the three-cycle
snapshot `cyc3` (`T1 → T2 → T3 → T1`, every thread locked and every owner
LWP resolved) it records no deadlock pair at all. -/
theorem c1_three_cycle_undetected : findDeadlock cyc3 = [] := rfl

/-! ## C2 -/

/-- Claim C2: the claim states that the Scenario A mutual-wait pair is reported
as exactly one deduplicated `DeadlockCycle`, never twice.  The code appends
one `(waiter, owner)` pair per traversal direction, and `print_status`
prints one `Deadlock between` line per recorded pair: the same two-thread
cycle is reported twice. -/
theorem c2_pair_reported_twice :
    findDeadlock [c2a, c2b] = [(c2a, c2b), (c2b, c2a)] ∧
    printStatus ⟨[c2a, c2b], 2, findDeadlock [c2a, c2b]⟩ false [] =
      .ok [.waiting c2a none c2b, .waiting c2b none c2a,
           .deadlockBetween c2a c2b, .deadlockBetween c2b c2a] :=
  ⟨rfl, rfl⟩

/-! ## C3 -/

/-- Claim C3: the claim states that snapshot parsing never raises and that a
frame line failing the grammar is kept with an invalid index while parsing
continues.  On the dump `c3Lines`, whose second line is the frame marker
`#` with no digits, the base pattern matches with an empty index group and
`int('', 10)` raises `ValueError`, aborting `parse_thread_state`. -/
theorem c3_parser_raises_on_digitless_frame :
    parseThreadState c3Lines = .error .valueError := rfl

/-! ## C4 -/

/-- Claim C4: the claim states a frame's from-locator is set exactly when the
`from` keyword is present and the at-locator only when `at` is present and
no from-locator was found.  On `c4Line`, which contains ` from ` and no
` in `/` at `, the source's always-true `elif 'at':` branch stores the
captured module path in `at_file` and leaves `from_file` unset. -/
theorem c4_from_locator_lands_in_at_field :
    parseFrame c4Line = .ok c4Frame ∧
    containsSub c4Line " from " = true ∧
    containsSub c4Line " at " = false ∧
    c4Frame.from_file = none ∧
    c4Frame.at_file = some "/lib/libc.so" :=
  ⟨rfl, rfl, rfl, rfl, rfl⟩

/-! ## C9 -/

/-- Claim C9: the claim states that filtering the status report by a thread name
is supported and does not make the run fail.  With one locked thread and
the filter `["worker"]`, the comprehension `[int(x, 10) for x in
only_show]` in `print_status` raises `ValueError` on the non-numeric entry
and the run aborts. -/
theorem c9_name_filter_raises :
    printStatus ⟨[c9Th], 1, []⟩ false ["worker"] = .error .valueError := rfl

/-! ## C10 -/

/-- Claim C10, counterexample: the claim selects the second field of the first
post-anchor line with exactly three fields; on `c10Lines` that line is
itself an anchor (`rbx 0x80 128`), which the code skips (re-setting
`found_special`), selecting `0xdead` from the following triple instead of
the claim's `0x80`. -/
theorem c10_counterexample :
    lockAddrScan c10Lines = some "0xdead" ∧
    claimAddrScan c10Lines = some "0x80" ∧
    lockAddrScan c10Lines ≠ claimAddrScan c10Lines :=
  ⟨rfl, rfl, by decide⟩

/-- One step of the register scan, expressed through `isAnchor` and the
field count. -/
theorem scanRegs_cons (l : String) (ls : List String) (fsp : Bool) :
    scanRegs (l :: ls) fsp =
      if isAnchor l then scanRegs ls true
      else if (fieldsOf l).length == 3 then
        (if fsp then (fieldsOf l).get? 1 else scanRegs ls fsp)
      else scanRegs ls fsp := by
  rcases hf : fieldsOf l with _ | ⟨f1, _ | ⟨f2, _ | ⟨f3, _ | rest⟩⟩⟩
  · simp [scanRegs, isAnchor, hf]
  · simp [scanRegs, isAnchor, hf]
  · simp [scanRegs, isAnchor, hf]
  · by_cases h80 : f2 = "0x80" ∧ f3 = "128"
    · simp [scanRegs, isAnchor, hf, h80]
    · simp [scanRegs, isAnchor, hf, h80]
  · simp [scanRegs, isAnchor, hf]

/-- An anchor line has exactly three fields. -/
theorem isAnchor_length (l : String) (h : isAnchor l = true) :
    (fieldsOf l).length = 3 := by
  unfold isAnchor at h
  rcases hf : fieldsOf l with _ | ⟨f1, _ | ⟨f2, _ | ⟨f3, _ | rest⟩⟩⟩ <;>
    rw [hf] at h <;> simp_all

/-- Before the anchor was seen, the scan drops every line up to and
including the first anchor line and continues with the flag set. -/
theorem scanRegs_false_eq (ls : List String) :
    scanRegs ls false =
      (match ls.dropWhile (fun l => !(isAnchor l)) with
       | [] => none
       | _ :: post => scanRegs post true) := by
  induction ls with
  | nil => rfl
  | cons l ls ih =>
    rw [scanRegs_cons, List.dropWhile_cons]
    by_cases ha : isAnchor l = true
    · simp [ha]
    · have ha' : isAnchor l = false := by simpa using ha
      by_cases h3 : ((fieldsOf l).length == 3) = true <;> simp [ha', h3, ih]

/-- After the anchor was seen, the scan selects the second field of the
first three-field line that is not itself an anchor. -/
theorem scanRegs_true_eq (ls : List String) :
    scanRegs ls true =
      (match ls.find? (fun l => ((fieldsOf l).length == 3) && !(isAnchor l)) with
       | some l => (fieldsOf l).get? 1
       | none => none) := by
  induction ls with
  | nil => rfl
  | cons l ls ih =>
    rw [scanRegs_cons, List.find?]
    by_cases ha : isAnchor l = true
    · have h3 := isAnchor_length l ha
      simp [ha, h3, ih]
    · have ha' : isAnchor l = false := by simpa using ha
      by_cases h3 : ((fieldsOf l).length == 3) = true <;> simp [ha', h3, ih]

/-- Claim C10, amended: the address handed to the structure-dump query is the
second field of the first post-anchor line with exactly three whitespace
fields **that is not itself an anchor line**; anchor-shaped triples re-set
the flag and are skipped, and lines with any other field count are
skipped. -/
theorem c10_scan_selects_first_nonanchor_triple (lines : List String) :
    lockAddrScan lines = amendedAddrScan lines := by
  unfold lockAddrScan amendedAddrScan
  cases hs : scanSep lines with
  | none => rfl
  | some rest =>
    show scanRegs rest false =
      (match rest.dropWhile (fun l => !(isAnchor l)) with
       | [] => none
       | _ :: post =>
         match post.find? (fun l => ((fieldsOf l).length == 3) && !(isAnchor l)) with
         | some l => (fieldsOf l).get? 1
         | none => none)
    rw [scanRegs_false_eq]
    cases hd : rest.dropWhile (fun l => !(isAnchor l)) with
    | nil => rfl
    | cons x post =>
      show scanRegs post true =
        (match post.find? (fun l => ((fieldsOf l).length == 3) && !(isAnchor l)) with
         | some l => (fieldsOf l).get? 1
         | none => none)
      rw [scanRegs_true_eq]

/-! ## C8 -/

/-- The frame loop of `set_locks` returns the `in_func` of the first frame
past the blocking index that has both a truthy at-locator and a truthy
function name. -/
theorem lockFuncLoop_eq_find (li : Int) (fs : List FrameData) :
    lockFuncLoop (some li) fs =
      .ok ((fs.find? (fun f => decide (f.index > li) && pyTruthyS f.at_file
        && pyTruthyS f.in_func)).bind (fun f => f.in_func)) := by
  induction fs with
  | nil => rfl
  | cons f fs ih =>
    by_cases hgt : f.index > li
    · by_cases hta : (pyTruthyS f.at_file && pyTruthyS f.in_func) = true
      · obtain ⟨ha, hi⟩ := (Bool.and_eq_true _ _).mp hta
        have hpred : (decide (f.index > li) && pyTruthyS f.at_file
            && pyTruthyS f.in_func) = true := by simp [hgt, ha, hi]
        simp only [List.find?, hpred]
        simp [lockFuncLoop, hgt, hta]
      · have hta' : (pyTruthyS f.at_file && pyTruthyS f.in_func) = false := by
          simpa using hta
        have hpred : (decide (f.index > li) && pyTruthyS f.at_file
            && pyTruthyS f.in_func) = false := by
          rw [Bool.and_assoc, hta', Bool.and_false]
        simp only [List.find?, hpred]
        rw [← ih]
        simp [lockFuncLoop, hgt, hta']
    · have hpred : (decide (f.index > li) && pyTruthyS f.at_file
          && pyTruthyS f.in_func) = false := by simp [hgt]
      simp only [List.find?, hpred]
      rw [← ih]
      simp [lockFuncLoop, hgt]

/-- Claim C8, counterexample: in the `c8Th` snapshot the frame entered immediately
after the blocking call (index 1) has function name `func_a` but only a
`from` module locator; `set_locks` skips it and records `func_b` from the
frame at index 2, while the claim's reading records `func_a`. -/
theorem c8_counterexample :
    setLockFunc c8Th = .ok (some "func_b") ∧
    claimLockFunc c8Th = some "func_a" ∧
    (some "func_b" : Option String) ≠ some "func_a" :=
  ⟨rfl, rfl, by decide⟩

/-- Claim C8, amended: for a blocked thread, the recorded blocked-inside function
name is the called-function name of the first frame — scanning frames in
order — whose index exceeds the blocking frame's index **and** which has
both a non-empty at-source locator and a non-empty called-function name;
frames missing either are skipped. -/
theorem c8_lock_func_first_at_in_frame (th : ThreadData) (li : Int)
    (h1 : th.locked = true) (h2 : th.locked_index = some li) :
    setLockFunc th =
      .ok ((th.frames.find? (fun f => decide (f.index > li)
        && pyTruthyS f.at_file && pyTruthyS f.in_func)).bind
          (fun f => f.in_func)) := by
  unfold setLockFunc
  rw [h1, h2, if_pos rfl, lockFuncLoop_eq_find]

/-- Claim C8 witness: the amended rule evaluated on the concrete `c8Th`. -/
theorem c8_lock_func_first_at_in_frame_witness :
    setLockFunc c8Th =
      .ok ((c8Th.frames.find? (fun f => decide (f.index > (0 : Int))
        && pyTruthyS f.at_file && pyTruthyS f.in_func)).bind
          (fun f => f.in_func)) :=
  c8_lock_func_first_at_in_frame c8Th 0 rfl rfl

/-! ## C6 -/

/-- With no `--thread` filter, the filter loop of `print_status` collects
exactly the locked threads, in order, each once. -/
theorem filterLoop_nil_filter (items : List ThreadData) (acc : List ThreadData) :
    filterLoop [] items acc = .ok (acc ++ items.filter (fun th => th.locked)) := by
  induction items generalizing acc with
  | nil => simp [filterLoop]
  | cons th rest ih =>
    cases hl : th.locked with
    | false => simp [filterLoop, hl, ih, List.filter_cons]
    | true =>
      cases hn : th.name with
      | none =>
        simp [filterLoop, hl, hn, ih, List.filter_cons, List.mapM.loop, pure_bind]
      | some nm =>
        simp [filterLoop, hl, hn, ih, List.filter_cons, List.mapM.loop, pure_bind]

/-- When every scanned thread's owner lookup fails, the report loop emits
one `noOwner` event per thread. -/
theorem reportLoop_all_unknown (all : List ThreadData) (items : List ThreadData)
    (h : ∀ th ∈ items, threadByLwp all th.lock_owner_lwp = none) :
    reportLoop all false items = items.map OutEvent.noOwner := by
  induction items with
  | nil => rfl
  | cons th rest ih =>
    have hth := h th (List.mem_cons_self th rest)
    unfold reportLoop
    rw [hth]
    rw [ih (fun th' hm => h th' (List.mem_cons_of_mem th hm))]
    rfl

/-- Claim C6: when every locked thread's resolved owner LWP matches no thread of
the snapshot, `find_deadlock` records no pair (the relation is discarded,
never dangling), and — the locked counter being non-zero — `print_status`
reports exactly one "no owner" line per locked thread: blocked with unknown
owner, and zero deadlock reports. -/
theorem c6_unknown_owner_no_deadlock (ths : List ThreadData) (n : Nat)
    (h1 : ∀ th ∈ ths, th.locked = true →
      threadByLwp ths th.lock_owner_lwp = none)
    (h2 : n ≠ 0) :
    findDeadlock ths = [] ∧
    printStatus ⟨ths, n, findDeadlock ths⟩ false [] =
      .ok ((ths.filter (fun th => th.locked)).map OutEvent.noOwner) := by
  have hfd : findDeadlock ths = [] := by
    apply findDeadlockAux_no_append
    intro th hm hl owner ho
    rw [h1 th hm hl] at ho
    exact absurd ho (by simp)
  refine ⟨hfd, ?_⟩
  unfold printStatus
  have hn0 : (n == 0) = false := by simpa using h2
  simp only [hn0, Bool.false_eq_true, if_false]
  rw [filterLoop_nil_filter]
  have hro : reportLoop ths false (ths.filter (fun th => th.locked)) =
      (ths.filter (fun th => th.locked)).map OutEvent.noOwner := by
    apply reportLoop_all_unknown
    intro th hm
    have := List.mem_filter.mp hm
    exact h1 th this.1 this.2
  show Except.ok (reportLoop ths false (ths.filter (fun th => th.locked))
      ++ (findDeadlock ths).map (fun p => OutEvent.deadlockBetween p.1 p.2)) = _
  rw [hro, hfd]
  simp

/-- Claim C6 witness: a snapshot holding one blocked thread whose owner LWP `999`
is unknown. -/
theorem c6_unknown_owner_no_deadlock_witness :
    findDeadlock [c6Th] = [] ∧
    printStatus ⟨[c6Th], 1, findDeadlock [c6Th]⟩ false [] =
      .ok (([c6Th].filter (fun th => th.locked)).map OutEvent.noOwner) :=
  c6_unknown_owner_no_deadlock [c6Th] 1 (by decide) (by decide)

/-! ## C7 -/

/-- Claim C7: when the wait graph — the resolved waiter-LWP to owner-LWP
relation restricted to owners belonging to known threads — is acyclic, the
pairwise scan of `find_deadlock` records no deadlock pair: every recorded
pair would exhibit a two-step (or, for a self-wait, one-step) cycle. -/
theorem c7_acyclic_no_deadlock (ths : List ThreadData)
    (h : ∀ x, ¬ Relation.TransGen (WaitRelL ths) x x) :
    findDeadlock ths = [] := by
  apply findDeadlockAux_no_append
  intro th hm hl owner ho
  by_contra hcond
  have hcond' : owner.locked = true ∧ pyTruthyS owner.lock_owner_lwp = true ∧
      owner.lock_owner_lwp = some th.lwp := by
    simpa using hcond
  obtain ⟨hol, -, hoe⟩ := hcond'
  have ho' : List.find? (fun x => some x.lwp == th.lock_owner_lwp) ths
      = some owner := ho
  have howner_mem : owner ∈ ths := List.mem_of_find?_eq_some ho'
  have hfind := List.find?_some ho'
  have hlo : th.lock_owner_lwp = some owner.lwp := by
    have h' : (some owner.lwp == th.lock_owner_lwp) = true := hfind
    exact (eq_of_beq h').symm
  have e1 : WaitRelL ths th.lwp owner.lwp :=
    ⟨th, hm, rfl, hl, hlo, owner, howner_mem, rfl⟩
  have e2 : WaitRelL ths owner.lwp th.lwp :=
    ⟨owner, howner_mem, rfl, hol, hoe, th, hm, rfl⟩
  exact h th.lwp ((Relation.TransGen.single e1).tail e2)

/-- Claim C7 witness: a single blocked thread whose owner LWP belongs to no known
thread — its wait graph has no edge, hence is acyclic. -/
theorem c7_acyclic_no_deadlock_witness : findDeadlock [c7Th] = [] := by
  apply c7_acyclic_no_deadlock
  intro x htg
  refine transGen_of_edgeless ?_ x x htg
  intro a b hr
  obtain ⟨t, ht, -, -, hao, u, hu, huy⟩ := hr
  rw [List.mem_singleton] at ht hu
  subst ht
  subst hu
  rw [show c7Th.lock_owner_lwp = some "202" from rfl] at hao
  rw [show c7Th.lwp = "101" from rfl] at huy
  have : ("202" : String) = "101" := (Option.some.inj hao).trans huy.symm
  exact absurd this (by decide)

/-! ## C5 -/

/-- Applying `add_frame` appends the frame. -/
theorem addFrame_frames (th : ThreadData) (n : Nat) (f : FrameData) :
    (addFrame th n f).1.frames = th.frames ++ [f] := by
  unfold addFrame
  cases hf : f.locked <;> simp [hf]

/-- Applying `add_frame` bumps `num_locked` once per blocking frame. -/
theorem addFrame_num (th : ThreadData) (n : Nat) (f : FrameData) :
    (addFrame th n f).2 = n + (if f.locked then 1 else 0) := by
  unfold addFrame
  cases hf : f.locked <;> simp [hf]

/-- Applying `add_frame` marks the thread locked exactly when it already was or the
new frame is blocking. -/
theorem addFrame_locked (th : ThreadData) (n : Nat) (f : FrameData) :
    (addFrame th n f).1.locked = (th.locked || f.locked) := by
  unfold addFrame
  cases hf : f.locked <;> simp [hf]

/-- Blocking-frame count after `add_frame`. -/
theorem lockedFrameCount_addFrame (th : ThreadData) (n : Nat) (f : FrameData) :
    lockedFrameCount (addFrame th n f).1 =
      lockedFrameCount th + (if f.locked then 1 else 0) := by
  unfold lockedFrameCount
  rw [addFrame_frames, List.countP_append]
  simp [List.countP_cons]

/-- The total `totalLockedFrames` is additive on concatenation. -/
theorem totalLockedFrames_append (a b : List ThreadData) :
    totalLockedFrames (a ++ b) = totalLockedFrames a + totalLockedFrames b := by
  simp [totalLockedFrames]

/-- Value of `totalLockedFrames` on a single thread. -/
theorem totalLockedFrames_singleton (th : ThreadData) :
    totalLockedFrames [th] = lockedFrameCount th := by
  simp [totalLockedFrames]

/-- The predicate `lockedOK` splits over concatenation. -/
theorem lockedOK_append (a b : List ThreadData) :
    lockedOK (a ++ b) ↔ lockedOK a ∧ lockedOK b := by
  simp only [lockedOK, List.mem_append, or_imp, forall_and]

/-- Invariant of the `parse_thread_state` loop: on success, the counter
equals the total number of blocking frames over the produced threads, and
every produced thread is marked locked exactly when it has a blocking
frame. -/
theorem ptsLoop_counts (lines : List String) :
    ∀ (cur : Option ThreadData) (acc : List ThreadData) (n : Nat)
      (ths : List ThreadData) (m : Nat),
    ptsLoop lines cur acc n = .ok (ths, m) →
    n = totalLockedFrames (acc ++ pending cur) →
    lockedOK (acc ++ pending cur) →
    m = totalLockedFrames ths ∧ lockedOK ths := by
  induction lines with
  | nil =>
    intro cur acc n ths m hok hn hinv
    cases cur with
    | none =>
      simp only [ptsLoop] at hok
      obtain ⟨h1, h2⟩ := Prod.mk.injEq .. ▸ (Except.ok.inj hok)
      subst h1
      subst h2
      refine ⟨by simpa [pending] using hn, by simpa [pending] using hinv⟩
    | some th =>
      simp only [ptsLoop] at hok
      obtain ⟨h1, h2⟩ := Prod.mk.injEq .. ▸ (Except.ok.inj hok)
      subst h1
      subst h2
      exact ⟨by simpa [pending] using hn, by simpa [pending] using hinv⟩
  | cons line rest ih =>
    intro cur acc n ths m hok hn hinv
    cases cur with
    | some th =>
      by_cases hb : (line == "") = true
      · simp only [ptsLoop, hb, if_true] at hok
        refine ih none (acc ++ [th]) n ths m hok ?_ ?_
        · simpa [pending, List.append_nil] using hn
        · simpa [pending, List.append_nil] using hinv
      · have hb' : (line == "") = false := by simpa using hb
        by_cases hh : (line.data.head? != some '#') = true
        · simp only [ptsLoop, hb', hh] at hok
          exact ih (some th) acc n ths m hok hn hinv
        · have hh' : (line.data.head? != some '#') = false := by simpa using hh
          simp only [ptsLoop, hb', hh'] at hok
          cases hpf : parseFrame line with
          | error e => rw [hpf] at hok; exact absurd hok (by simp)
          | ok f =>
            rw [hpf] at hok
            refine ih (some (addFrame th n f).1) acc
              (addFrame th n f).2 ths m hok ?_ ?_
            · rw [addFrame_num]
              rw [hn]
              simp only [pending, totalLockedFrames_append,
                totalLockedFrames_singleton, lockedFrameCount_addFrame]
              omega
            · rw [lockedOK_append] at hinv ⊢
              refine ⟨hinv.1, ?_⟩
              intro t ht
              rw [pending, List.mem_singleton] at ht
              subst ht
              rw [addFrame_locked, addFrame_frames]
              have hth : th.locked = th.frames.any (fun fr => fr.locked) :=
                hinv.2 th (by simp [pending])
              rw [hth]
              simp [List.any_append]
    | none =>
      by_cases hs : startsW line "Thread " = true
      · simp only [ptsLoop, hs, if_true] at hok
        cases hmatch : reMatch headerPat line with
        | none =>
          simp only [hmatch] at hok
          exact ih none acc n ths m hok hn hinv
        | some caps =>
          simp only [hmatch] at hok
          cases hpi : pyInt ((capGroup caps 0).getD "") with
          | error e => simp only [hpi] at hok; exact absurd hok (by simp)
          | ok idx =>
            simp only [hpi] at hok
            refine ih _ acc n ths m hok ?_ ?_
            · rw [hn]
              simp [pending, totalLockedFrames_append, totalLockedFrames,
                lockedFrameCount, mkThread]
            · rw [lockedOK_append] at hinv ⊢
              refine ⟨hinv.1, ?_⟩
              intro t ht
              rw [pending, List.mem_singleton] at ht
              subst ht
              simp [mkThread]
      · have hs' : startsW line "Thread " = false := by simpa using hs
        simp only [ptsLoop, hs'] at hok
        exact ih none acc n ths m hok hn hinv

/-- A count bounded by one equals one exactly when some element matches. -/
theorem countP_le_one_iff_any {α : Type} (l : List α) (p : α → Bool)
    (h : l.countP p ≤ 1) :
    l.countP p = if l.any p then 1 else 0 := by
  induction l with
  | nil => simp
  | cons a t ih =>
    cases hp : p a with
    | true =>
      have h0 : t.countP p = 0 := by
        rw [List.countP_cons, hp] at h
        simp at h
        exact List.countP_eq_zero.mpr (fun x hx => by simp [h x hx])
      simp [List.countP_cons, hp, h0, List.any_cons]
    | false =>
      have ht : t.countP p ≤ 1 := by
        rw [List.countP_cons, hp] at h
        simpa using h
      simp [List.countP_cons, hp, List.any_cons, ih ht]

/-- When every thread has at most one blocking frame, the total number of
blocking frames equals the number of threads marked locked. -/
theorem totalLocked_eq_countP (l : List ThreadData)
    (h1 : ∀ th ∈ l, lockedFrameCount th ≤ 1) (h2 : lockedOK l) :
    totalLockedFrames l = l.countP (fun th => th.locked) := by
  induction l with
  | nil => rfl
  | cons th t ih =>
    have hth1 := h1 th (List.mem_cons_self th t)
    have hth2 := h2 th (List.mem_cons_self th t)
    have hrec := ih (fun x hx => h1 x (List.mem_cons_of_mem th hx))
      (fun x hx => h2 x (List.mem_cons_of_mem th hx))
    have hcnt : lockedFrameCount th = if th.locked = true then 1 else 0 := by
      unfold lockedFrameCount at hth1 ⊢
      rw [countP_le_one_iff_any _ _ hth1, hth2]
    have ht : totalLockedFrames (th :: t) =
        lockedFrameCount th + totalLockedFrames t := by
      simp [totalLockedFrames]
    rw [ht, List.countP_cons, hrec, hcnt]
    omega

/-- Claim C5, counterexample: on the dump `c5Lines` one thread carries two
blocking frames (both `in_func` names contain `pthread_mutex_lock`), so
`num_locked` ends at `2` while only `1` thread is marked blocked — the
claimed equality fails on this parsed snapshot. -/
theorem c5_counterexample :
    (parseThreadState c5Lines).toOption.map
      (fun r => (r.2, r.1.countP (fun th => th.locked))) = some (2, 1) ∧
    (2 : Nat) ≠ 1 :=
  ⟨rfl, by decide⟩

/-- Claim C5, amended: the global locked-thread counter counts blocking frames,
one increment per blocking frame; it equals the number of threads marked
blocked provided every parsed thread has at most one blocking frame (the
code does not enforce that premise — see the counterexample). -/
theorem c5_counter_counts_blocking_frames (lines : List String)
    (ths : List ThreadData) (m : Nat)
    (hok : parseThreadState lines = .ok (ths, m))
    (h1 : ∀ th ∈ ths, lockedFrameCount th ≤ 1) :
    m = ths.countP (fun th => th.locked) := by
  obtain ⟨hm, hins⟩ := ptsLoop_counts lines none [] 0 ths m hok
    (by simp [totalLockedFrames, pending]) (by simp [lockedOK, pending])
  rw [hm]
  exact totalLocked_eq_countP ths h1 hins

/-- Claim C5 witness: the single-blocking-frame dump `c5WitLines` parses to one
locked thread and a counter of one. -/
theorem c5_counter_counts_blocking_frames_witness :
    (1 : Nat) = [c5WitThread].countP (fun th => th.locked) :=
  c5_counter_counts_blocking_frames c5WitLines [c5WitThread] 1 rfl (by decide)
